import Mathlib

/-!
Shallow embedding of `src/go/v8/binding.cc` (the v8worker C binding).

The script engine (V8) is an external collaborator: compilation,
instantiation, evaluation and callback invocation outcomes are supplied by
oracle functions, while everything the binding itself computes (control
flow, cache bookkeeping, return codes, diagnostic formatting, the strings it
builds) is translated directly from the C++ source.

Machine `int`s never overflow on the paths modelled here (line numbers,
loop counters), so they are embedded as `Int`/`Nat`.
-/

/-- Engine-reported message details attached to an exception, as consumed by
`ExceptionString` (binding.cc lines 74-109): resource name, line number from
`GetLineNumber`, the offending source line, and the start/end columns (the
code defaults each missing column to 0 via `FromMaybe(0)`; columns are
non-negative, so they are embedded as `Nat`). -/
structure MsgInfo where
  filename : String
  linenum : Int
  sourceline : String
  startCol : Nat
  endCol : Nat
deriving DecidableEq, Repr

/-- What `TryCatch` exposes about a caught exception (binding.cc lines
71-110): the exception text, the optional `Message` details, and the stack
trace string (empty when `StackTrace` has length 0). -/
structure ExcInfo where
  exceptionText : String
  message : Option MsgInfo
  stackTrace : String
deriving DecidableEq, Repr

/-- One `out.append(piece)` repeated `n` times, the shape of the two
character loops in `ExceptionString` (binding.cc lines 102-108). -/
def appendN (out piece : String) : Nat → String
  | 0 => out
  | n + 1 => appendN (out ++ piece) piece n

/-- Source translation of `ExceptionString` (binding.cc lines 63-121), done
statement by
statement: with no message info, just the exception text and a newline;
otherwise `filename:linenum`, the source line, `startCol` spaces followed by
`endCol - startCol` carets, then the stack trace if non-empty and the bare
exception text otherwise, each line newline-terminated. -/
def ExceptionString (e : ExcInfo) : String :=
  match e.message with
  | none => e.exceptionText ++ "\n"
  | some m =>
    let out := "" ++ m.filename ++ ":" ++ toString m.linenum ++ "\n"
    let out := out ++ m.sourceline ++ "\n"
    let out := appendN out " " m.startCol
    let out := appendN out "^" (m.endCol - m.startCol)
    let out := out ++ "\n"
    if e.stackTrace.length > 0 then
      out ++ e.stackTrace ++ "\n"
    else
      out ++ e.exceptionText ++ "\n"

/-- Spec-side Diagnostic format, written from the words of the spec (section
3, Diagnostic): resource name and line number joined by a colon, the
offending source line, a caret underline of `^` characters spanning the
start column to the end column preceded by start-many spaces, then the stack
trace if non-empty or else the bare exception message, each on its own
line, in that order; with no message info, only the exception message and a
newline. -/
def diagnosticSpecFormat (e : ExcInfo) : String :=
  match e.message with
  | none => e.exceptionText ++ "\n"
  | some m =>
    m.filename ++ ":" ++ toString m.linenum ++ "\n" ++
    m.sourceline ++ "\n" ++
    String.mk (List.replicate m.startCol ' ') ++
    String.mk (List.replicate (m.endCol - m.startCol) '^') ++ "\n" ++
    (if e.stackTrace.length > 0 then e.stackTrace else e.exceptionText) ++ "\n"

/-- Per-context module data (binding.cc lines 24-43): the identifier-to-module
map and the inverse module-to-identifier map. Compiled module handles are
embedded as natural numbers allocated from `nextModule`; `fetchLog` records
every invocation of the host source provider `getModuleSource` (worker id is
fixed, so only the requested identifier is logged); both maps are embedded
as association lists with `std::unordered_map::insert` semantics (an insert
on an existing key is a no-op). -/
structure LoadState where
  url_to_module_map : List (String × Nat)
  module_to_url_map : List (Nat × String)
  nextModule : Nat
  fetchLog : List String
deriving DecidableEq, Repr

/-- Insert semantics of `std::unordered_map<std::string, Module>`: keep the
existing entry if the key is present, otherwise add the pair. -/
def insertUrl (m : List (String × Nat)) (k : String) (v : Nat) : List (String × Nat) :=
  match m.lookup k with
  | some _ => m
  | none => (k, v) :: m

/-- Insert semantics of `std::unordered_map<Module, std::string>`: keep the
existing entry if the key is present, otherwise add the pair. -/
def insertMod (m : List (Nat × String)) (k : Nat) (v : String) : List (Nat × String) :=
  match m.lookup k with
  | some _ => m
  | none => (k, v) :: m

/-- The empty per-context module data installed by `InitModuleData`
(binding.cc lines 128-131). -/
def initModuleData : LoadState :=
  { url_to_module_map := [], module_to_url_map := [], nextModule := 0, fetchLog := [] }

/-- Oracle for the external engine plus the host source provider: `compile u`
is the combined outcome of `getModuleSource(id, u)` followed by
`ScriptCompiler::CompileModule` on the returned text (failure carries the
exception the `TryCatch` captures, success the list of module requests in
declaration order); `instantiate` and `evaluate` give the outcome of
`InstantiateModule` and `Evaluate` on the root handle, keyed by the root
identifier. -/
structure ModuleEngine where
  compile : String → Except ExcInfo (List String)
  instantiate : String → Option ExcInfo
  evaluate : String → Option ExcInfo

/-- Result of one `LoadModule` call: in the C++, `mod` is either set to the
compiled module (`ok`), or left empty after a compile failure somewhere in
the graph (`fail`, carrying the captured exception); `outOfFuel` is the
embedding artefact for recursion that exceeds the given depth budget (the
C++ recursion is unbounded, so the C++ call diverges exactly when every
finite budget returns `outOfFuel`). -/
inductive LoadResult where
  | ok (m : Nat)
  | fail (e : ExcInfo)
  | outOfFuel
deriving DecidableEq, Repr

/-- The loop over `module->GetModuleRequests` (binding.cc lines 170-177):
run `step` (a recursive `LoadModule` call) on each request in order; on the
first request whose result is empty, return it and stop. -/
def runImports (step : LoadState → String → LoadState × LoadResult) :
    LoadState → List String → LoadState × Option LoadResult
  | s, [] => (s, none)
  | s, name :: rest =>
    match step s name with
    | (s1, .ok _) => runImports step s1 rest
    | (s1, .fail e) => (s1, some (.fail e))
    | (s1, .outOfFuel) => (s1, some .outOfFuel)

/-- The two cache insertions of `LoadModule` (binding.cc lines 164-168):
allocate the compiled handle `s.nextModule` and enter it into both maps
(`std::unordered_map::insert`, so an already-present key is untouched). -/
def cacheInsert (s : LoadState) (url : String) : LoadState :=
  { s with
    url_to_module_map := insertUrl s.url_to_module_map url s.nextModule,
    module_to_url_map := insertMod s.module_to_url_map s.nextModule url,
    nextModule := s.nextModule + 1 }

/-- Source translation of `LoadModule` (binding.cc lines 146-181),
fuel-indexed: fetch the source
via the host provider (logged unconditionally — the function performs no
cache lookup before fetching or compiling), compile it, insert the fresh
handle into both cache maps, then recursively load each declared import in
order; the result of the first failing import is returned (`mod` left empty in
the C++), otherwise the compiled handle. On compile failure the function
returns before any insertion. -/
def LoadModule (eng : ModuleEngine) : Nat → LoadState → String → LoadState × LoadResult
  | 0, s, _ => (s, .outOfFuel)
  | fuel + 1, s, url =>
    let s1 := { s with fetchLog := s.fetchLog ++ [url] }
    match eng.compile url with
    | .error e => (s1, .fail e)
    | .ok reqs =>
      let m := s1.nextModule
      let res := runImports (LoadModule eng fuel) (cacheInsert s1 url) reqs
      (res.1, res.2.getD (.ok m))

/-- Abstraction of the engine value returned by a script callback, as far
as `worker_send_sync` inspects it: `IsString()` with its text, or anything
else. -/
inductive JSVal where
  | str (s : String)
  | other
deriving DecidableEq, Repr

/-- The `worker_s` struct (binding.cc lines 13-20), with the per-context `ModuleData`
folded in (the worker owns exactly one context). The registered `$recv`
callback is modelled by its observable behaviour under `Call`: `none` means
it returned normally, `some e` that it threw and the `TryCatch` captured
`e`. The `$recvSync` handler is modelled by the value it returns. -/
structure Worker where
  last_exception : String
  recv : Option (String → Option ExcInfo)
  recv_sync_handler : Option (String → JSVal)
  moduleData : LoadState

/-- Source translation of `worker_load_module` (binding.cc lines 306-340):
run `LoadModule` from
the worker state; empty result means compile failure somewhere in the graph
(code 1), then `InstantiateModule` (code 2 on failure), then `Evaluate`
(code 3 on failure), each failure recording the formatted exception; code 0
on success. `none` is the embedding of a run that exhausts the fuel (the
C++ call has not returned). -/
def worker_load_module (eng : ModuleEngine) (fuel : Nat) (w : Worker) (url : String) :
    Option (Worker × Nat) :=
  match LoadModule eng fuel w.moduleData url with
  | (_, .outOfFuel) => none
  | (s, .fail e) =>
    some ({ w with moduleData := s, last_exception := ExceptionString e }, 1)
  | (s, .ok _) =>
    let w1 := { w with moduleData := s }
    match eng.instantiate url with
    | some e => some ({ w1 with last_exception := ExceptionString e }, 2)
    | none =>
      match eng.evaluate url with
      | some e => some ({ w1 with last_exception := ExceptionString e }, 3)
      | none => some (w1, 0)

/-- Oracle for the flat-script path of the engine: outcome of
`Script::Compile` on (name, source), and of `script->Run()` when
compilation succeeded. -/
structure ScriptEngine where
  compileScript : String → String → Option ExcInfo
  runScript : String → String → Option ExcInfo

/-- Source translation of `worker_load_script` (binding.cc lines 342-374):
compile failure sets
the formatted exception and returns 1, run failure sets it and returns 2,
otherwise 0 with the worker untouched. -/
def worker_load_script (eng : ScriptEngine) (w : Worker) (name src : String) :
    Worker × Nat :=
  match eng.compileScript name src with
  | some e => ({ w with last_exception := ExceptionString e }, 1)
  | none =>
    match eng.runScript name src with
    | some e => ({ w with last_exception := ExceptionString e }, 2)
    | none => (w, 0)

/-- Source translation of `worker_send` (binding.cc lines 421-450): with no
`$recv` callback
registered, set the fixed message and return 1; if the invoked callback
throws, set the formatted exception and return 2; otherwise return 0. Only
the integer code is returned to the host. -/
def worker_send (w : Worker) (msg : String) : Worker × Nat :=
  match w.recv with
  | none =>
    ({ w with last_exception := "v8worker: callback not registered with $recv" }, 1)
  | some f =>
    match f msg with
    | some e => ({ w with last_exception := ExceptionString e }, 2)
    | none => (w, 0)

/-- Source translation of `worker_send_sync` (binding.cc lines 454-482):
with no `$recvSync`
handler registered, return the fixed sentinel; invoke the handler and
return its result if it is a string, the fixed non-string sentinel
otherwise. The worker (in particular `last_exception`) is never modified. -/
def worker_send_sync (w : Worker) (msg : String) : Worker × String :=
  match w.recv_sync_handler with
  | none => (w, "v8worker: callback not registered with $recvSync")
  | some f =>
    match f msg with
    | .str s => (w, s)
    | .other => (w, "v8worker: non-string return value")

/-- Events on the per-isolate execution lock, as they appear in the source:
`enterLocker` is the construction of a `v8::Locker` by the worker thread,
`exitLocker` its destruction at the end of the enclosing C++ scope, and
`hostCallback` an invocation of a host-side callback (`recvCb` or
`recvSyncCb`). A `v8::Locker` is re-entrant per thread: the thread holds the
isolate lock exactly while the number of live Lockers it has constructed is
positive, and the lock is relinquished only when that count returns to
zero. -/
inductive LockEv where
  | enterLocker
  | exitLocker
  | hostCallback
deriving DecidableEq, Repr

/-- Net number of live Lockers after the events of `t`. -/
def lockDepth (t : List LockEv) : Int :=
  (t.count LockEv.enterLocker : Int) - (t.count LockEv.exitLocker : Int)

/-- Number of live Lockers (hence whether the isolate lock is held, namely
iff this is positive) just before the event at index `i`. -/
def depthBefore (t : List LockEv) (i : Nat) : Int :=
  lockDepth (t.take i)

/-- Lock events of the `$send` boundary function `Send` (binding.cc lines
238-260) in execution order: the scoped `Locker` is constructed at line 246,
destroyed when its block ends at line 257, and `recvCb` is invoked at line
259. -/
def Send_events : List LockEv :=
  [LockEv.enterLocker, LockEv.exitLocker, LockEv.hostCallback]

/-- Lock events of the `$sendSync` boundary function `SendSync` (binding.cc
lines 263-287): `Locker` at line 271, block end at line 282, `recvSyncCb`
at line 283. -/
def SendSync_events : List LockEv :=
  [LockEv.enterLocker, LockEv.exitLocker, LockEv.hostCallback]

/-- Lock events of a re-entrant async send: `worker_send` constructs its
`Locker` at line 422 and holds it for the whole call; `recv->Call` (line
442) runs script code that calls `$send`, producing the events of `Send`
nested inside; the outer `Locker` is destroyed when `worker_send` returns. -/
def worker_send_reentrant_events : List LockEv :=
  [LockEv.enterLocker] ++ Send_events ++ [LockEv.exitLocker]

/-- Lock events of a script-initiated sync send reached from
`worker_send_sync` (Locker at line 456 spanning the call,
`recv_sync_handler->Call` at line 473 running script code that calls
`$sendSync`). -/
def worker_send_sync_reentrant_events : List LockEv :=
  [LockEv.enterLocker] ++ SendSync_events ++ [LockEv.exitLocker]

/-- A concrete exception used by the test environments. -/
def exc0 : ExcInfo := { exceptionText := "boom", message := none, stackTrace := "" }

/-- Environment in which module `A` has no imports and every other
identifier fails to compile; instantiation and evaluation succeed. -/
def simpleEnv : ModuleEngine where
  compile := fun u => if u = "A" then .ok [] else .error exc0
  instantiate := fun _ => none
  evaluate := fun _ => none

/-- Environment with an import cycle: `A` imports `B` and `B` imports `A`. -/
def cycleEnv : ModuleEngine where
  compile := fun u =>
    if u = "A" then .ok ["B"] else if u = "B" then .ok ["A"] else .error exc0
  instantiate := fun _ => none
  evaluate := fun _ => none

/-- Environment in which `A` declares the import `B` twice and `B` declares
no imports. -/
def dupEnv : ModuleEngine where
  compile := fun u =>
    if u = "A" then .ok ["B", "B"] else if u = "B" then .ok [] else .error exc0
  instantiate := fun _ => none
  evaluate := fun _ => none

/-- Environment in which the root `A` compiles and imports `B`, and `B`
fails to compile. -/
def failEnv : ModuleEngine where
  compile := fun u => if u = "A" then .ok ["B"] else .error exc0
  instantiate := fun _ => none
  evaluate := fun _ => none

/-- A freshly initialised worker carrying a prior diagnostic, with no
callbacks registered. -/
def w0 : Worker :=
  { last_exception := "prior", recv := none, recv_sync_handler := none,
    moduleData := initModuleData }

/-- An async receiver that always throws `exc0`. -/
def fThrow : String → Option ExcInfo := fun _ => some exc0

/-- An async receiver that always returns normally. -/
def fOk : String → Option ExcInfo := fun _ => none

/-- A sync receiver that always returns a non-string value. -/
def gOther : String → JSVal := fun _ => JSVal.other

/-- Worker `w0` with a throwing async receiver registered. -/
def wThrow : Worker := { w0 with recv := some fThrow }

/-- Worker `w0` with a normally returning async receiver registered. -/
def wOk : Worker := { w0 with recv := some fOk }

/-- Worker `w0` with a sync receiver registered that returns a non-string. -/
def wSyncOther : Worker := { w0 with recv_sync_handler := some gOther }

/-- A script engine on which every script compiles and runs successfully. -/
def engOkScript : ScriptEngine :=
  { compileScript := fun _ _ => none, runScript := fun _ _ => none }

/-- The worker state after `worker_load_module simpleEnv 1 w0 "A"`: module
`A` cached as handle 0, one provider fetch, diagnostic untouched. -/
def w0A : Worker :=
  { w0 with moduleData :=
    { url_to_module_map := [("A", 0)], module_to_url_map := [(0, "A")],
      nextModule := 1, fetchLog := ["A"] } }

/-- The module-cache state after `LoadModule failEnv 2 initModuleData "A"`:
the root `A` was fetched and compiled (handle 0, cached), its import `B`
was fetched and failed to compile, so `B` is absent from the cache. -/
def sFail : LoadState :=
  { url_to_module_map := [("A", 0)], module_to_url_map := [(0, "A")],
    nextModule := 1, fetchLog := ["A", "B"] }

/-- The worker after `worker_load_module failEnv 2 w0 "A"`. -/
def w1A : Worker :=
  { w0 with moduleData := sFail, last_exception := ExceptionString exc0 }

/-- The invariant the cache actually maintains: every entry of
`url_to_module_map` points back to its identifier through
`module_to_url_map` (the converse can fail after a duplicate compilation),
and every handle stored in either map was allocated below `nextModule`. -/
def CacheConsistent (s : LoadState) : Prop :=
  (∀ p ∈ s.url_to_module_map, s.module_to_url_map.lookup p.2 = some p.1) ∧
  (∀ p ∈ s.url_to_module_map, p.2 < s.nextModule) ∧
  (∀ q ∈ s.module_to_url_map, q.1 < s.nextModule)

lemma appendN_singleton (c : Char) :
    ∀ (n : Nat) (out : String),
      appendN out (String.mk [c]) n = out ++ String.mk (List.replicate n c) := by
  intro n
  induction n with
  | zero =>
    intro out
    apply String.ext
    simp [appendN]
  | succ k ih =>
    intro out
    show appendN (out ++ String.mk [c]) (String.mk [c]) k = _
    rw [ih]
    apply String.ext
    simp [String.data_append, List.replicate_succ]

lemma LoadModule_succ_error (eng : ModuleEngine) (n : Nat) (s : LoadState)
    (url : String) (e : ExcInfo) (h : eng.compile url = .error e) :
    LoadModule eng (n + 1) s url = ({ s with fetchLog := s.fetchLog ++ [url] }, .fail e) := by
  unfold LoadModule
  rw [h]

lemma LoadModule_succ_ok (eng : ModuleEngine) (n : Nat) (s : LoadState)
    (url : String) (reqs : List String) (h : eng.compile url = .ok reqs) :
    LoadModule eng (n + 1) s url =
      ((runImports (LoadModule eng n)
          (cacheInsert { s with fetchLog := s.fetchLog ++ [url] } url) reqs).1,
       (runImports (LoadModule eng n)
          (cacheInsert { s with fetchLog := s.fetchLog ++ [url] } url) reqs).2.getD
         (.ok s.nextModule)) := by
  unfold LoadModule
  rw [h]

lemma runImports_preserve (step : LoadState → String → LoadState × LoadResult)
    (P : LoadState → Prop) (hstep : ∀ s u, P s → P (step s u).1) :
    ∀ (l : List String) (s : LoadState), P s → P (runImports step s l).1 := by
  intro l
  induction l with
  | nil => intro s h; exact h
  | cons a t ih =>
    intro s h
    unfold runImports
    cases hs : step s a with
    | mk s1 r =>
      have h1 : P s1 := by
        have h2 := hstep s a h
        rw [hs] at h2
        exact h2
      cases r with
      | ok m => exact ih s1 h1
      | fail e => exact h1
      | outOfFuel => exact h1

lemma LoadModule_preserve (eng : ModuleEngine) (P : LoadState → Prop)
    (hfetch : ∀ s url, P s → P { s with fetchLog := s.fetchLog ++ [url] })
    (hins : ∀ s url reqs, eng.compile url = Except.ok reqs → P s → P (cacheInsert s url)) :
    ∀ (fuel : Nat) (s : LoadState) (url : String), P s → P (LoadModule eng fuel s url).1 := by
  intro fuel
  induction fuel with
  | zero => intro s url h; exact h
  | succ n ih =>
    intro s url h
    cases hc : eng.compile url with
    | error e =>
      rw [LoadModule_succ_error eng n s url e hc]
      exact hfetch s url h
    | ok reqs =>
      rw [LoadModule_succ_ok eng n s url reqs hc]
      exact runImports_preserve (LoadModule eng n) P (fun t v ht => ih t v ht) reqs _
        (hins _ url reqs hc (hfetch s url h))

lemma lookup_insertUrl_ne (m : List (String × Nat)) (k : String) (v : Nat)
    (u : String) (hne : k ≠ u) :
    (insertUrl m k v).lookup u = m.lookup u := by
  unfold insertUrl
  cases h : m.lookup k with
  | some w => rfl
  | none =>
    have hb : (u == k) = false := beq_eq_false_iff_ne.mpr (Ne.symm hne)
    simp [List.lookup, hb]

lemma LoadModule_no_insert (eng : ModuleEngine) (u : String) (e2 : ExcInfo)
    (hu : eng.compile u = .error e2) (fuel : Nat) (s : LoadState) (url : String)
    (h : s.url_to_module_map.lookup u = none) :
    (LoadModule eng fuel s url).1.url_to_module_map.lookup u = none := by
  refine LoadModule_preserve eng (fun t => t.url_to_module_map.lookup u = none)
    (fun s1 url1 h1 => h1) ?_ fuel s url h
  intro s1 url1 reqs hok h1
  show (insertUrl s1.url_to_module_map url1 s1.nextModule).lookup u = none
  have hne : url1 ≠ u := by
    intro heq
    rw [heq, hu] at hok
    exact Except.noConfusion hok
  rw [lookup_insertUrl_ne _ _ _ _ hne]
  exact h1

lemma runImports_head_oof (step : LoadState → String → LoadState × LoadResult)
    (s : LoadState) (name : String) (rest : List String)
    (h : (step s name).2 = LoadResult.outOfFuel) :
    (runImports step s (name :: rest)).2 = some LoadResult.outOfFuel := by
  unfold runImports
  cases hs : step s name with
  | mk s1 r =>
    have hr : r = LoadResult.outOfFuel := by
      rw [hs] at h
      exact h
    subst hr
    rfl

lemma cycle_oof : ∀ (fuel : Nat) (s : LoadState),
    (LoadModule cycleEnv fuel s "A").2 = LoadResult.outOfFuel ∧
    (LoadModule cycleEnv fuel s "B").2 = LoadResult.outOfFuel := by
  intro fuel
  induction fuel with
  | zero => intro s; exact ⟨rfl, rfl⟩
  | succ n ih =>
    intro s
    constructor
    · rw [LoadModule_succ_ok cycleEnv n s "A" ["B"] rfl]
      dsimp only
      rw [runImports_head_oof (LoadModule cycleEnv n) _ "B" []
        ((ih (cacheInsert { s with fetchLog := s.fetchLog ++ ["A"] } "A")).2)]
      rfl
    · rw [LoadModule_succ_ok cycleEnv n s "B" ["A"] rfl]
      dsimp only
      rw [runImports_head_oof (LoadModule cycleEnv n) _ "A" []
        ((ih (cacheInsert { s with fetchLog := s.fetchLog ++ ["B"] } "B")).1)]
      rfl

lemma lookup_none_of_lt (m : List (Nat × String)) (k : Nat)
    (h : ∀ q ∈ m, q.1 < k) : m.lookup k = none := by
  induction m with
  | nil => rfl
  | cons a t ih =>
    obtain ⟨k1, v1⟩ := a
    have ha := h (k1, v1) (List.mem_cons_self _ _)
    have hne : (k == k1) = false := by
      simp only [beq_eq_false_iff_ne]
      omega
    simp only [List.lookup, hne]
    exact ih (fun q hq => h q (List.mem_cons_of_mem _ hq))

lemma lookup_cons_ne (t : List (Nat × String)) (k1 k : Nat) (v1 : String)
    (hne : k ≠ k1) : ((k1, v1) :: t).lookup k = t.lookup k := by
  have hb : (k == k1) = false := beq_eq_false_iff_ne.mpr hne
  simp only [List.lookup, hb]

lemma CacheConsistent_cacheInsert (s : LoadState) (url : String)
    (h : CacheConsistent s) : CacheConsistent (cacheInsert s url) := by
  obtain ⟨h1, h2, h3⟩ := h
  have hfresh : s.module_to_url_map.lookup s.nextModule = none :=
    lookup_none_of_lt s.module_to_url_map s.nextModule h3
  unfold cacheInsert insertMod insertUrl
  rw [hfresh]
  cases hk : s.url_to_module_map.lookup url with
  | some v =>
    refine ⟨?_, ?_, ?_⟩
    · intro p hp
      simp only at hp ⊢
      have hlt := h2 p hp
      rw [lookup_cons_ne _ _ _ _ (by omega)]
      exact h1 p hp
    · intro p hp
      simp only at hp ⊢
      have := h2 p hp
      omega
    · intro q hq
      simp only at hq ⊢
      rcases List.mem_cons.mp hq with hq1 | hq2
      · rw [hq1]
        omega
      · have := h3 q hq2
        omega
  | none =>
    refine ⟨?_, ?_, ?_⟩
    · intro p hp
      simp only at hp ⊢
      rcases List.mem_cons.mp hp with hp1 | hp2
      · rw [hp1]
        simp [List.lookup]
      · have hlt := h2 p hp2
        rw [lookup_cons_ne _ _ _ _ (by omega)]
        exact h1 p hp2
    · intro p hp
      simp only at hp ⊢
      rcases List.mem_cons.mp hp with hp1 | hp2
      · rw [hp1]
        exact Nat.lt_succ_self _
      · have := h2 p hp2
        omega
    · intro q hq
      simp only at hq ⊢
      rcases List.mem_cons.mp hq with hq1 | hq2
      · rw [hq1]
        exact Nat.lt_succ_self _
      · have := h3 q hq2
        omega

/-- C6: on an exception that carries message information, `ExceptionString`
emits `name:line`, the offending source line, a caret underline of `^`
spanning the reported start to end column preceded by start-many spaces,
then the stack trace if non-empty or else the bare exception message, each
on its own line, in that fixed order; with no message information, only the
exception message and a newline. Stated as: the source formatter agrees
with `diagnosticSpecFormat`, which is written from the words of the spec. -/
theorem ExceptionString_eq_spec (e : ExcInfo) :
    ExceptionString e = diagnosticSpecFormat e := by
  obtain ⟨tex, msg, st⟩ := e
  unfold ExceptionString diagnosticSpecFormat
  cases msg with
  | none => rfl
  | some m =>
    dsimp only
    have hsp : (" " : String) = String.mk [' '] := rfl
    have hct : ("^" : String) = String.mk ['^'] := rfl
    rw [hsp, hct, appendN_singleton, appendN_singleton]
    by_cases h : st.length > 0
    · simp only [if_pos h]
      apply String.ext
      simp [String.data_append]
    · simp only [if_neg h]
      apply String.ext
      simp [String.data_append]

/-- C1: loading the same module identifier through two `worker_load_module`
calls on one worker invokes the host source provider once per call (the
fetch log ends up `["A", "A"]`) and compiles the module once per call (two
handles are allocated), both calls returning 0: `LoadModule` performs no
cache lookup before fetching and compiling, so the second request is not
satisfied from the Module Cache, contradicting the claim that the provider
is invoked and the module compiled exactly once. -/
theorem second_load_refetches_and_recompiles :
    ((worker_load_module simpleEnv 2 w0 "A").bind fun p =>
        worker_load_module simpleEnv 2 p.1 "A").map
        (fun p => (p.2, p.1.moduleData.fetchLog, p.1.moduleData.nextModule)) =
      some (0, ["A", "A"], 2) := by
  decide

/-- C2: on the cyclic graph of `cycleEnv` (`A` imports `B`, `B` imports
`A`) the load never completes: `LoadModule` exhausts every finite recursion
budget (so the unbounded C++ recursion never returns), and
`worker_load_module` never reaches a result — because `LoadModule` inserts
into the cache but never consults it, the re-entrant request for `A` does
not find itself cached and the recursion does not terminate, contradicting
the claimed cycle safety. -/
theorem cycle_load_never_terminates (fuel : Nat) (w : Worker) :
    worker_load_module cycleEnv fuel w "A" = none ∧
    (LoadModule cycleEnv fuel w.moduleData "A").2 = LoadResult.outOfFuel := by
  have h := (cycle_oof fuel w.moduleData).1
  refine ⟨?_, h⟩
  unfold worker_load_module
  cases hL : LoadModule cycleEnv fuel w.moduleData "A" with
  | mk s r =>
    have hr : r = LoadResult.outOfFuel := by
      rw [hL] at h
      exact h
    subst hr
    rfl

/-- C3: `worker_load_module` returns only the codes 0 to 3; code 1 arises
exactly from a compile failure somewhere in the module graph, code 2 from
an instantiation failure, code 3 from an evaluation failure, and in each
failure case `last_exception` is set to the `ExceptionString` of that
failure, while code 0 (success) leaves it untouched. -/
theorem worker_load_module_codes (eng : ModuleEngine) (fuel : Nat) (w : Worker)
    (url : String) (w1 : Worker) (c : Nat)
    (h : worker_load_module eng fuel w url = some (w1, c)) :
    (c = 0 ∨ c = 1 ∨ c = 2 ∨ c = 3) ∧
    (c = 1 → ∃ e, (LoadModule eng fuel w.moduleData url).2 = LoadResult.fail e ∧
      w1.last_exception = ExceptionString e) ∧
    (c = 2 → (∃ m, (LoadModule eng fuel w.moduleData url).2 = LoadResult.ok m) ∧
      ∃ e, eng.instantiate url = some e ∧ w1.last_exception = ExceptionString e) ∧
    (c = 3 → (∃ m, (LoadModule eng fuel w.moduleData url).2 = LoadResult.ok m) ∧
      eng.instantiate url = none ∧
      ∃ e, eng.evaluate url = some e ∧ w1.last_exception = ExceptionString e) ∧
    (c = 0 → (∃ m, (LoadModule eng fuel w.moduleData url).2 = LoadResult.ok m) ∧
      eng.instantiate url = none ∧ eng.evaluate url = none ∧
      w1.last_exception = w.last_exception) := by
  unfold worker_load_module at h
  cases hL : LoadModule eng fuel w.moduleData url with
  | mk s r =>
    rw [hL] at h
    cases r with
    | outOfFuel => simp at h
    | fail e =>
      simp at h
      obtain ⟨hw, hc⟩ := h
      subst hc
      subst hw
      refine ⟨by omega, ?_, ?_, ?_, ?_⟩
      · intro _
        exact ⟨e, rfl, rfl⟩
      · intro h2; omega
      · intro h2; omega
      · intro h2; omega
    | ok m =>
      simp at h
      cases hi : eng.instantiate url with
      | some e =>
        rw [hi] at h
        simp at h
        obtain ⟨hw, hc⟩ := h
        subst hc
        subst hw
        refine ⟨by omega, ?_, ?_, ?_, ?_⟩
        · intro h2; omega
        · intro _
          exact ⟨⟨m, rfl⟩, e, rfl, rfl⟩
        · intro h2; omega
        · intro h2; omega
      | none =>
        rw [hi] at h
        cases he : eng.evaluate url with
        | some e =>
          rw [he] at h
          simp at h
          obtain ⟨hw, hc⟩ := h
          subst hc
          subst hw
          refine ⟨by omega, ?_, ?_, ?_, ?_⟩
          · intro h2; omega
          · intro h2; omega
          · intro _
            exact ⟨⟨m, rfl⟩, rfl, e, rfl, rfl⟩
          · intro h2; omega
        | none =>
          rw [he] at h
          simp at h
          obtain ⟨hw, hc⟩ := h
          subst hc
          subst hw
          refine ⟨by omega, ?_, ?_, ?_, ?_⟩
          · intro h2; omega
          · intro h2; omega
          · intro h2; omega
          · intro _
            exact ⟨⟨m, rfl⟩, rfl, rfl, rfl⟩

/-- C3 witness: a concrete compile-failing load returning code 1 with the
formatted diagnostic recorded. -/
theorem worker_load_module_codes_witness :
    worker_load_module failEnv 2 w0 "A" = some (w1A, 1) ∧
    (∃ e, (LoadModule failEnv 2 w0.moduleData "A").2 = LoadResult.fail e ∧
      w1A.last_exception = ExceptionString e) :=
  ⟨rfl, (worker_load_module_codes failEnv 2 w0 "A" w1A 1 rfl).2.1 rfl⟩

/-- C4: `worker_send` returns 1 and sets `last_exception` to the fixed
no-receiver message when no async receiver is registered, returns 2 and
sets `last_exception` to the formatted Diagnostic of the thrown exception
when the invoked receiver throws, and returns 0 leaving the worker
untouched otherwise; in every case only the integer code is returned to
the host. -/
theorem worker_send_cases (w : Worker) (msg : String) :
    (w.recv = none →
      worker_send w msg =
        ({ w with last_exception := "v8worker: callback not registered with $recv" }, 1)) ∧
    (∀ f e, w.recv = some f → f msg = some e →
      worker_send w msg = ({ w with last_exception := ExceptionString e }, 2)) ∧
    (∀ f, w.recv = some f → f msg = none → worker_send w msg = (w, 0)) := by
  refine ⟨?_, ?_, ?_⟩
  · intro h
    simp [worker_send, h]
  · intro f e hf he
    simp [worker_send, hf, he]
  · intro f hf he
    simp [worker_send, hf, he]

/-- C4 witness: the three cases of `worker_send_cases` at concrete workers. -/
theorem worker_send_cases_witness :
    worker_send w0 "m" =
      ({ w0 with last_exception := "v8worker: callback not registered with $recv" }, 1) ∧
    worker_send wThrow "m" = ({ wThrow with last_exception := ExceptionString exc0 }, 2) ∧
    worker_send wOk "m" = (wOk, 0) :=
  ⟨(worker_send_cases w0 "m").1 rfl,
   (worker_send_cases wThrow "m").2.1 fThrow exc0 rfl rfl,
   (worker_send_cases wOk "m").2.2 fOk rfl rfl⟩

/-- C5: `worker_send_sync` returns the fixed sentinel
`v8worker: callback not registered with $recvSync` when no sync receiver is
registered and the fixed sentinel `v8worker: non-string return value` when
the registered receiver returns a non-string; the worker — in particular
`last_exception` — is never modified, so the failure is encoded only in the
returned string. -/
theorem worker_send_sync_cases (w : Worker) (msg : String) :
    (w.recv_sync_handler = none →
      worker_send_sync w msg = (w, "v8worker: callback not registered with $recvSync")) ∧
    (∀ f, w.recv_sync_handler = some f → f msg = JSVal.other →
      worker_send_sync w msg = (w, "v8worker: non-string return value")) ∧
    (worker_send_sync w msg).1 = w := by
  refine ⟨?_, ?_, ?_⟩
  · intro h
    simp [worker_send_sync, h]
  · intro f hf hv
    simp [worker_send_sync, hf, hv]
  · unfold worker_send_sync
    cases h : w.recv_sync_handler with
    | none => rfl
    | some f => cases hv : f msg <;> simp [hv]

/-- C5 witness: the no-receiver and non-string cases of
`worker_send_sync_cases` at concrete workers. -/
theorem worker_send_sync_cases_witness :
    worker_send_sync w0 "m" = (w0, "v8worker: callback not registered with $recvSync") ∧
    worker_send_sync wSyncOther "m" = (wSyncOther, "v8worker: non-string return value") ∧
    (worker_send_sync wSyncOther "q").1 = wSyncOther :=
  ⟨(worker_send_sync_cases w0 "m").1 rfl,
   (worker_send_sync_cases wSyncOther "m").2.1 gOther rfl rfl,
   (worker_send_sync_cases wSyncOther "q").2.2⟩

/-- C7: when the root compiles but the graph load fails (that is, some
transitive import failed to compile), `worker_load_module` returns the
same code 1 as
a direct compile failure of the root, records the formatted Diagnostic of
the failing compile, and any identifier whose source fails to compile is
never inserted into the Module Cache. -/
theorem transitive_compile_failure (eng : ModuleEngine) (fuel : Nat) (w : Worker)
    (root : String) (reqs : List String) (e : ExcInfo) (w1 : Worker) (c : Nat)
    (u : String) (e2 : ExcInfo)
    (_hroot : eng.compile root = Except.ok reqs)
    (hfail : (LoadModule eng fuel w.moduleData root).2 = LoadResult.fail e)
    (hcall : worker_load_module eng fuel w root = some (w1, c))
    (hu : eng.compile u = Except.error e2)
    (hmiss : w.moduleData.url_to_module_map.lookup u = none) :
    c = 1 ∧ w1.last_exception = ExceptionString e ∧
    w1.moduleData.url_to_module_map.lookup u = none := by
  unfold worker_load_module at hcall
  cases hL : LoadModule eng fuel w.moduleData root with
  | mk s r =>
    have hr : r = LoadResult.fail e := by
      have h2 := hfail
      rw [hL] at h2
      exact h2
    subst hr
    rw [hL] at hcall
    simp at hcall
    obtain ⟨hw, hc⟩ := hcall
    subst hc
    subst hw
    refine ⟨rfl, rfl, ?_⟩
    show s.url_to_module_map.lookup u = none
    have h3 := LoadModule_no_insert eng u e2 hu fuel w.moduleData root hmiss
    rw [hL] at h3
    exact h3

/-- C7 witness: in `failEnv` the root `A` compiles, its import `B` fails to
compile, the load returns code 1 with the diagnostic of `B`, and `B` is not
in the cache. -/
theorem transitive_compile_failure_witness :
    failEnv.compile "A" = Except.ok ["B"] ∧
    failEnv.compile "B" = Except.error exc0 ∧
    (1 = 1 ∧ w1A.last_exception = ExceptionString exc0 ∧
      w1A.moduleData.url_to_module_map.lookup "B" = none) :=
  ⟨rfl, rfl,
   transitive_compile_failure failEnv 2 w0 "A" ["B"] exc0 w1A 1 "B" exc0
     rfl rfl rfl rfl rfl⟩

/-- C8: `last_exception` is never cleared or modified by a succeeding
operation: `worker_load_script`, `worker_load_module` and `worker_send`
leave it unchanged whenever they return code 0, and `worker_send_sync`
leaves it unchanged on every call, sentinel cases included. -/
theorem success_preserves_last_exception (w : Worker) :
    (∀ eng name src w1, worker_load_script eng w name src = (w1, 0) →
      w1.last_exception = w.last_exception) ∧
    (∀ eng fuel url w1, worker_load_module eng fuel w url = some (w1, 0) →
      w1.last_exception = w.last_exception) ∧
    (∀ msg w1, worker_send w msg = (w1, 0) → w1.last_exception = w.last_exception) ∧
    (∀ msg, (worker_send_sync w msg).1.last_exception = w.last_exception) := by
  refine ⟨?_, ?_, ?_, ?_⟩
  · intro eng name src w1 h
    unfold worker_load_script at h
    cases hc : eng.compileScript name src with
    | some e => rw [hc] at h; simp at h
    | none =>
      rw [hc] at h
      cases hr : eng.runScript name src with
      | some e => rw [hr] at h; simp at h
      | none =>
        rw [hr] at h
        simp at h
        rw [← h]
  · intro eng fuel url w1 h
    unfold worker_load_module at h
    cases hL : LoadModule eng fuel w.moduleData url with
    | mk s r =>
      rw [hL] at h
      cases r with
      | outOfFuel => simp at h
      | fail e => simp at h
      | ok m =>
        simp at h
        cases hi : eng.instantiate url with
        | some e => rw [hi] at h; simp at h
        | none =>
          rw [hi] at h
          cases he : eng.evaluate url with
          | some e => rw [he] at h; simp at h
          | none =>
            rw [he] at h
            simp at h
            rw [← h]
  · intro msg w1 h
    unfold worker_send at h
    cases hc : w.recv with
    | none => rw [hc] at h; simp at h
    | some f =>
      rw [hc] at h
      simp only [] at h
      cases hf : f msg with
      | some e => rw [hf] at h; simp at h
      | none => rw [hf] at h; simp at h; rw [← h]
  · intro msg
    unfold worker_send_sync
    cases h : w.recv_sync_handler with
    | none => rfl
    | some f => cases hv : f msg <;> simp [hv]

/-- C8 witness: concrete succeeding calls of each operation, with the
hypotheses of `success_preserves_last_exception` discharged on them. -/
theorem success_preserves_last_exception_witness :
    worker_load_module simpleEnv 1 w0 "A" = some (w0A, 0) ∧
    w0A.last_exception = w0.last_exception ∧
    w0.last_exception = w0.last_exception ∧
    wOk.last_exception = wOk.last_exception ∧
    (worker_send_sync w0 "m").1.last_exception = w0.last_exception :=
  ⟨rfl,
   (success_preserves_last_exception w0).2.1 simpleEnv 1 "A" w0A rfl,
   (success_preserves_last_exception w0).1 engOkScript "n" "s" w0 rfl,
   (success_preserves_last_exception wOk).2.2.1 "m" wOk rfl,
   (success_preserves_last_exception w0).2.2.2 "m"⟩

/-- C9 counterexample: in the re-entrant async-send scenario the host-side
callback `recvCb` (index 3 of the event list) runs while the Locker count
is still 1 — the worker-level `Locker` of `worker_send` is alive across the
callback — so the engine execution lock is not released before the host
callback is invoked. -/
theorem send_callback_under_lock :
    worker_send_reentrant_events[3]? = some LockEv.hostCallback ∧
    depthBefore worker_send_reentrant_events 3 ≠ 0 := by
  decide

/-- C9 amended: in both boundary functions the scoped `Locker` is destroyed
(index 1) before the host callback is invoked (index 2), but when the
boundary function is reached from `worker_send` / `worker_send_sync` the
worker-level Locker remains live across the host callback (depth 1, not 0):
a re-entrant host callback on the same thread avoids deadlock only because
the engine lock is re-entrant per thread, not because it was released. -/
theorem locker_scope_vs_callback :
    Send_events[1]? = some LockEv.exitLocker ∧
    Send_events[2]? = some LockEv.hostCallback ∧
    SendSync_events[1]? = some LockEv.exitLocker ∧
    SendSync_events[2]? = some LockEv.hostCallback ∧
    worker_send_reentrant_events[3]? = some LockEv.hostCallback ∧
    depthBefore worker_send_reentrant_events 3 = 1 ∧
    worker_send_sync_reentrant_events[3]? = some LockEv.hostCallback ∧
    depthBefore worker_send_sync_reentrant_events 3 = 1 := by
  decide

/-- C10 counterexample: after loading `A` from `dupEnv` (which imports `B`
twice), the second compilation of `B` adds handle 2 to `module_to_url_map`
while `url_to_module_map` still maps `B` to handle 1 (the insert on the
existing key was a no-op), so the two maps are not mutual inverses. -/
theorem cache_maps_not_mutual_inverses :
    ¬ (∀ (u : String) (h : Nat),
        (LoadModule dupEnv 3 initModuleData "A").1.url_to_module_map.lookup u = some h ↔
        (LoadModule dupEnv 3 initModuleData "A").1.module_to_url_map.lookup h = some u) := by
  intro hiff
  have h1 := (hiff "B" 2).mpr (by decide)
  exact absurd h1 (by decide)

/-- C10 amended: after any `LoadModule` run from a consistent state, every
entry `(u, h)` of `url_to_module_map` still has the reverse entry
`(h, u)` reachable by lookup in `module_to_url_map`, and all stored
handles are below `nextModule` — the forward direction of the claimed
mutual-inverse property; the converse direction is refuted by
`cache_maps_not_mutual_inverses`, since a duplicated identifier adds a
second handle to `module_to_url_map` only. -/
theorem cache_forward_link_invariant (eng : ModuleEngine) (fuel : Nat)
    (s : LoadState) (url : String) (h : CacheConsistent s) :
    CacheConsistent (LoadModule eng fuel s url).1 :=
  LoadModule_preserve eng CacheConsistent
    (fun _ _ h1 => h1)
    (fun s1 url1 _ _ h1 => CacheConsistent_cacheInsert s1 url1 h1)
    fuel s url h

/-- C10 witness: the invariant holds of the empty cache and is carried by
`cache_forward_link_invariant` through the duplicate-import load used in
the counterexample. -/
theorem cache_forward_link_invariant_witness :
    CacheConsistent initModuleData ∧
    CacheConsistent (LoadModule dupEnv 3 initModuleData "A").1 :=
  ⟨by constructor <;> simp [initModuleData],
   cache_forward_link_invariant dupEnv 3 initModuleData "A"
     (by constructor <;> simp [initModuleData])⟩
